import Mathlib

/-!
Shallow embedding of the `yuokada/go-dnsrcache` repository.

The repository has three variants of a TTL cache over DNS resolution:
* `DnsReverseCache` (dnsrache.go): reverse lookups, `Refresh` deletes expired
  entries, `SetTTL` returns an error, `Close` cancels a context.
* `DNSCache` (older variant): reverse lookups, `SetTTL` only logs on bad input.
* `Resolver` (forward variant): hostname → IPs, per-key TTLs, `Refresh`
  re-resolves expired entries, `Stop` closes a channel.

Time is modelled as `Int` (absolute instants and durations);
`time.Time.After` is `<` seen from the right, `time.Time.Before` is `<`.
The external resolver (`net.LookupAddr` / `net.LookupIP`) is passed as a
function `String → Except String _`; errors are their message strings.
Each cache operation additionally returns the number of resolver
invocations it performed, so that "no resolution call occurs" is a
statement about the returned count.
Go maps are modelled as association lists with `mapGet`/`mapInsert`.
-/

/-- Go map read `m[k]`: the value at key `k`, if present. -/
def mapGet {α : Type} (m : List (String × α)) (k : String) : Option α :=
  match m with
  | [] => none
  | (k', v) :: rest => if k' = k then some v else mapGet rest k

/-- Go map write `m[k] = v`: replace the binding of `k`, or append it. -/
def mapInsert {α : Type} (m : List (String × α)) (k : String) (v : α) :
    List (String × α) :=
  match m with
  | [] => [(k, v)]
  | (k', v') :: rest =>
    if k' = k then (k, v) :: rest else (k', v') :: mapInsert rest k v

/-! ### `DnsReverseCache` (dnsrache.go) -/

/-- `fqdns`: cached reverse-lookup results with their absolute expiry. -/
structure Fqdns where
  domains : List String
  expires : Int
  deriving DecidableEq

/-- `DnsReverseCache`: reverse-lookup cache. `cancel` is the context
cancellation function (`none` = nil); `cancelled` records whether it has been
invoked; `backgroundStarted` records whether `go d.autoRefresh(ctx)` ran. -/
structure DnsReverseCache where
  defaultTTL : Int
  cache : List (String × Fqdns)
  cancel : Option Unit
  cancelled : Bool
  backgroundStarted : Bool
  deriving DecidableEq

/-- `NewDnsReverseCache`: the constructor; the cancel function is created and
the refresh goroutine started only under `defaultTTL > 0`. -/
def NewDnsReverseCache (defaultTTL : Int) : DnsReverseCache :=
  { defaultTTL := defaultTTL
    cache := []
    cancel := if defaultTTL > 0 then some () else none
    cancelled := false
    backgroundStarted := decide (defaultTTL > 0) }

/-- `SetTTL`: overwrite `defaultTTL` when positive, else return an error
(second component) and change nothing. -/
def DnsReverseCache.SetTTL (d : DnsReverseCache) (ttl : Int) :
    DnsReverseCache × Option String :=
  if ttl > 0 then ({ d with defaultTTL := ttl }, none)
  else (d, some "invalid ttl. ttl wasn't set")

/-- `LookupAddr`: resolve bypassing the cache; on success store the results
with expiry `now + defaultTTL`. The `Nat` component counts resolver calls. -/
def DnsReverseCache.LookupAddr (resolver : String → Except String (List String))
    (d : DnsReverseCache) (now : Int) (address : String) :
    DnsReverseCache × Except String (List String) × Nat :=
  match resolver address with
  | Except.error e => (d, Except.error e, 1)
  | Except.ok results =>
    ({ d with cache := mapInsert d.cache address ⟨results, now + d.defaultTTL⟩ },
      Except.ok results, 1)

/-- `Fetch`: return the cached domains when an entry exists and
`expires.After(now)`, i.e. `now < expires`; otherwise fall through to
`LookupAddr`. -/
def DnsReverseCache.Fetch (resolver : String → Except String (List String))
    (d : DnsReverseCache) (now : Int) (address : String) :
    DnsReverseCache × Except String (List String) × Nat :=
  match mapGet d.cache address with
  | some value =>
    if now < value.expires then (d, Except.ok value.domains, 0)
    else DnsReverseCache.LookupAddr resolver d now address
  | none => DnsReverseCache.LookupAddr resolver d now address

/-- `Refresh`: delete every entry with `expires.Before(now)`, i.e. keep the
entries with `¬ expires < now`. -/
def DnsReverseCache.Refresh (d : DnsReverseCache) (now : Int) : DnsReverseCache :=
  { d with cache := d.cache.filter (fun p => !(decide (p.2.expires < now))) }

/-- Calling a `context.CancelFunc`: panics (error) when the function is nil. -/
def cancelFuncCall (d : DnsReverseCache) : Except String DnsReverseCache :=
  match d.cancel with
  | some _ => Except.ok { d with cancelled := true }
  | none => Except.error "invalid memory address or nil pointer dereference"

/-- `Close`: invoke the cancel function only when it is non-nil. -/
def DnsReverseCache.Close (d : DnsReverseCache) : Except String DnsReverseCache :=
  if d.cancel.isSome then cancelFuncCall d else Except.ok d

/-- One iteration of `autoRefresh`'s select loop: terminate (`none`) once the
context is cancelled, otherwise run `Refresh` on a ticker tick. -/
def DnsReverseCache.autoRefreshStep (d : DnsReverseCache) (now : Int) :
    Option DnsReverseCache :=
  if d.cancelled then none else some (d.Refresh now)

/-! ### `DNSCache` (older reverse-lookup variant) -/

/-- `DNSCache`: the older reverse-lookup cache (no cancellation handle). -/
structure DNSCache where
  defaultTTL : Int
  cache : List (String × Fqdns)
  deriving DecidableEq

/-- `DNSCache.SetTTL`: overwrite `defaultTTL` when positive; otherwise only
log. The components are the new state, the value handed back to the caller —
`()`, since the Go function is void and has no error result — and the log
line printed (`none` = nothing logged). -/
def DNSCache.SetTTL (d : DNSCache) (ttl : Int) :
    DNSCache × Unit × Option String :=
  if ttl > 0 then ({ d with defaultTTL := ttl }, (), none)
  else (d, (), some "invalid ttl. ttl wasn't set.")

/-! ### `Resolver` (forward-lookup variant) -/

/-- `net.IP`: a byte slice (length 4 or 16 for well-formed addresses). -/
def IP : Type := List Nat

instance : DecidableEq IP := fun a b => instDecidableEqList a b

/-- `net.IP.To4`: the 4-byte form when the address is IPv4 (length 4, or
length 16 with the 0…0 ffff prefix), else nil (`none`). -/
def IP.to4 (ip : IP) : Option IP :=
  let bytes : List Nat := ip
  if bytes.length = 4 then some ip
  else if bytes.length = 16 && (bytes.take 10).all (fun b => b == 0)
        && bytes.getD 10 0 == 255 && bytes.getD 11 0 == 255 then
    some (bytes.drop 12)
  else none

/-- Rendering of `net.IP.String` (an external collaborator; only its value on
concrete addresses passes through the cache, never its structure). -/
def IP.str (ip : IP) : String :=
  String.intercalate "." ((ip : List Nat).map toString)

/-- `value`: cached forward-lookup results — all IPs, the IPv4-only subset,
and the absolute expiry. -/
structure Value where
  ips : List IP
  ipv4s : List IP
  expires : Int
  deriving DecidableEq

/-- `Resolver`: the forward-lookup cache. `stop` is the stop channel:
`none` = nil channel, `some b` = channel allocated, `b` = closed.
`backgroundStarted` records whether `go resolver.autoRefresh()` ran. -/
structure Resolver where
  stop : Option Bool
  minTTL : Int
  defaultTTL : Int
  cache : List (String × Value)
  ttls : List (String × Int)
  backgroundStarted : Bool
  deriving DecidableEq

/-- `New`: the constructor; the stop channel is always allocated, the refresh
goroutine started only under `defaultTTL > 0`. -/
def Resolver.New (defaultTTL : Int) : Resolver :=
  { stop := some false
    minTTL := defaultTTL
    defaultTTL := defaultTTL
    cache := []
    ttls := []
    backgroundStarted := decide (defaultTTL > 0) }

/-- `TTL`: set a per-address TTL override, lowering `minTTL` if needed. -/
def Resolver.TTL (r : Resolver) (address : String) (ttl : Int) : Resolver :=
  let r' := { r with ttls := mapInsert r.ttls address ttl }
  if ttl < r.minTTL then { r' with minTTL := ttl } else r'

/-- The TTL `Lookup` applies to `address`: the per-address override when one
is set, else `defaultTTL`. -/
def ttlFor (r : Resolver) (address : String) : Int :=
  match mapGet r.ttls address with
  | some t => t
  | none => r.defaultTTL

/-- `Lookup`: resolve bypassing the cache; on success store all IPs, the
IPv4-only subset (those with non-nil `To4`), and expiry `now + ttlFor`. The
`Nat` component counts resolver calls. -/
def Resolver.Lookup (resolve : String → Except String (List IP))
    (r : Resolver) (now : Int) (address : String) :
    Resolver × Except String (List IP) × Nat :=
  match resolve address with
  | Except.error e => (r, Except.error e, 1)
  | Except.ok ips =>
    let v4s := ips.filter (fun ip => (IP.to4 ip).isSome)
    ({ r with cache :=
        mapInsert r.cache address ⟨ips, v4s, now + ttlFor r address⟩ },
      Except.ok ips, 1)

/-- `Fetch`: return any cached entry (no expiry check in this variant);
otherwise fall through to `Lookup`. -/
def Resolver.Fetch (resolve : String → Except String (List IP))
    (r : Resolver) (now : Int) (address : String) :
    Resolver × Except String (List IP) × Nat :=
  match mapGet r.cache address with
  | some v => (r, Except.ok v.ips, 0)
  | none => Resolver.Lookup resolve r now address

/-- `FetchOne`: one IP out of `Fetch`'s results (`none` = nil IP). `rnd n`
models `rand.Intn(n)`; it is reduced mod `n` to stay in range. -/
def Resolver.FetchOne (resolve : String → Except String (List IP))
    (rnd : Nat → Nat) (r : Resolver) (now : Int) (address : String) :
    Resolver × Except String (Option IP) × Nat :=
  match Resolver.Fetch resolve r now address with
  | (r', Except.error e, c) => (r', Except.error e, c)
  | (r', Except.ok ips, c) =>
    if ips.length = 0 then (r', Except.ok none, c)
    else if ips.length = 1 then (r', Except.ok ips.head?, c)
    else (r', Except.ok (ips.get? (rnd ips.length % ips.length)), c)

/-- `FetchOneString`: `FetchOne`'s result rendered as a string, the empty
string for a nil IP or on error. -/
def Resolver.FetchOneString (resolve : String → Except String (List IP))
    (rnd : Nat → Nat) (r : Resolver) (now : Int) (address : String) :
    Resolver × Except String String × Nat :=
  match Resolver.FetchOne resolve rnd r now address with
  | (r', Except.error e, c) => (r', Except.error e, c)
  | (r', Except.ok none, c) => (r', Except.ok "", c)
  | (r', Except.ok (some ip), c) => (r', Except.ok (IP.str ip), c)

/-- `FetchV4`: the cached IPv4 subset when an entry exists; otherwise resolve
via `Lookup`, re-read the cache, and return the stored subset (`[]` standing
for Go's `nil, nil` when the entry is somehow absent). -/
def Resolver.FetchV4 (resolve : String → Except String (List IP))
    (r : Resolver) (now : Int) (address : String) :
    Resolver × Except String (List IP) × Nat :=
  match mapGet r.cache address with
  | some v => (r, Except.ok v.ipv4s, 0)
  | none =>
    match Resolver.Lookup resolve r now address with
    | (r', Except.error e, c) => (r', Except.error e, c)
    | (r', Except.ok _, c) =>
      match mapGet r'.cache address with
      | some v => (r', Except.ok v.ipv4s, c)
      | none => (r', Except.ok [], c)

/-- `FetchOneV4`: one IPv4 address out of `FetchV4`'s results. -/
def Resolver.FetchOneV4 (resolve : String → Except String (List IP))
    (rnd : Nat → Nat) (r : Resolver) (now : Int) (address : String) :
    Resolver × Except String (Option IP) × Nat :=
  match Resolver.FetchV4 resolve r now address with
  | (r', Except.error e, c) => (r', Except.error e, c)
  | (r', Except.ok ips, c) =>
    if ips.length = 0 then (r', Except.ok none, c)
    else if ips.length = 1 then (r', Except.ok ips.head?, c)
    else (r', Except.ok (ips.get? (rnd ips.length % ips.length)), c)

/-- `Refresh`: collect the keys of entries with `expires.Before(now)`, then
`Lookup` each one in turn (results and errors discarded). -/
def Resolver.Refresh (resolve : String → Except String (List IP))
    (r : Resolver) (now : Int) : Resolver :=
  let addresses :=
    (r.cache.filter (fun p => decide (p.2.expires < now))).map Prod.fst
  addresses.foldl (fun acc a => (Resolver.Lookup resolve acc now a).1) r

/-- Closing a Go channel: panics (error) when the channel is nil or already
closed. -/
def chanClose (stop : Option Bool) : Except String (Option Bool) :=
  match stop with
  | some false => Except.ok (some true)
  | some true => Except.error "close of closed channel"
  | none => Except.error "close of nil channel"

/-- `Stop`: close the stop channel. -/
def Resolver.Stop (r : Resolver) : Except String Resolver :=
  match chanClose r.stop with
  | Except.ok s => Except.ok { r with stop := s }
  | Except.error e => Except.error e

/-- One iteration of `autoRefresh`'s select loop: terminate (`none`) once the
stop channel is closed, otherwise run `Refresh` after the `minTTL` wait. -/
def Resolver.autoRefreshStep (resolve : String → Except String (List IP))
    (r : Resolver) (now : Int) : Option Resolver :=
  if r.stop = some true then none else some (Resolver.Refresh resolve r now)

/-! ### Concrete fixtures used by witnesses and counterexamples -/

/-- A stub reverse resolver: `127.0.0.1 → ["localhost"]`, all else fails. -/
def stubResolver : String → Except String (List String) :=
  fun a => if a = "127.0.0.1" then Except.ok ["localhost"]
           else Except.error "no such host"

/-- A cache state holding a fresh entry for `127.0.0.1` expiring at 20. -/
def wDns : DnsReverseCache :=
  { NewDnsReverseCache 10 with cache := [("127.0.0.1", ⟨["localhost"], 20⟩)] }

/-- One IPv4 and one IPv6 address, as `example.com` resolves to them. -/
def wIps : List IP :=
  [[93, 184, 216, 34],
   [38, 0, 28, 184, 0, 0, 0, 0, 0, 0, 0, 0, 0, 0, 23, 51]]

/-- A stub forward resolver: `example.com` resolves to one IPv4 and one IPv6
address, everything else fails. -/
def stubResolveIP : String → Except String (List IP) :=
  fun a => if a = "example.com" then Except.ok wIps
           else Except.error "no such host"

/-- A forward resolver that succeeds with an empty result list. -/
def emptyResolveIP : String → Except String (List IP) := fun _ => Except.ok []

/-- A forward resolver that always fails. -/
def failResolveIP : String → Except String (List IP) :=
  fun _ => Except.error "no such host"

/-- The reverse resolver that always fails. -/
def failResolver : String → Except String (List String) :=
  fun _ => Except.error "no such host"

/-- A resolver state holding a fresh entry for `example.com` expiring at 20. -/
def wRes : Resolver :=
  { Resolver.New 10 with
      cache := [("example.com", ⟨[[1, 2, 3, 4]], [[1, 2, 3, 4]], 20⟩)] }

/-- The entry of `stale.example` whose expiry (0) lies in the past at time 5. -/
def staleVal : Value :=
  { ips := [[1, 2, 3, 4]], ipv4s := [[1, 2, 3, 4]], expires := 0 }

/-- A resolver state holding only the stale `stale.example` entry. -/
def staleRes : Resolver :=
  { Resolver.New 10 with cache := [("stale.example", staleVal)] }

/-- The boundary state: the entry of `127.0.0.1` expires exactly at 5. -/
def wBoundary : DnsReverseCache :=
  { NewDnsReverseCache 10 with cache := [("127.0.0.1", ⟨["localhost"], 5⟩)] }

/-- A resolver that freshly resolves `stale.example` and fails elsewhere. -/
def staleResolveIP : String → Except String (List IP) :=
  fun a => if a = "stale.example" then Except.ok [[9, 9, 9, 9]]
           else Except.error "no such host"

/-- The loop of `Resolver.Refresh`: `Lookup` each collected address in turn,
discarding results and errors. -/
def refreshFold (resolve : String → Except String (List IP)) (now : Int)
    (addrs : List String) (r : Resolver) : Resolver :=
  addrs.foldl (fun acc a => (Resolver.Lookup resolve acc now a).1) r

/-! ### Map and refresh-loop lemmas -/

theorem mapGet_mapInsert_self {α : Type} (m : List (String × α)) (k : String) (v : α) :
    mapGet (mapInsert m k v) k = some v := by
  induction m with
  | nil => simp [mapGet, mapInsert]
  | cons hd tl ih =>
    obtain ⟨k', v'⟩ := hd
    by_cases h : k' = k <;> simp [mapGet, mapInsert, h, ih]

theorem mapGet_mapInsert_ne {α : Type} (m : List (String × α)) (k k' : String) (v : α)
    (h : k' ≠ k) : mapGet (mapInsert m k v) k' = mapGet m k' := by
  induction m with
  | nil => simp [mapGet, mapInsert, Ne.symm h]
  | cons hd tl ih =>
    obtain ⟨ka, va⟩ := hd
    by_cases hk : ka = k
    · subst hk
      simp [mapGet, mapInsert, Ne.symm h]
    · simp only [mapInsert, if_neg hk]
      by_cases hk' : ka = k' <;> simp [mapGet, hk', ih]

/-- If `k` is bound to `v` and the (value-only) predicate keeps `v`, filtering
the map does not change the binding of `k`. -/
theorem mapGet_filter_keep {α : Type} (p : α → Bool) (m : List (String × α))
    (k : String) (v : α) (hm : mapGet m k = some v) (hp : p v = true) :
    mapGet (m.filter (fun q => p q.2)) k = some v := by
  induction m with
  | nil => simp [mapGet] at hm
  | cons hd tl ih =>
    obtain ⟨k', v'⟩ := hd
    by_cases h : k' = k
    · subst h
      simp [mapGet] at hm
      subst hm
      simp [List.filter_cons, hp, mapGet]
    · simp [mapGet, h] at hm
      by_cases hp' : p v' = true <;>
        simp [List.filter_cons, hp', mapGet, h, ih hm]

/-- A value read out of the filtered map satisfies the filter predicate. -/
theorem mapGet_filter_pred {α : Type} (p : α → Bool) (m : List (String × α))
    (k : String) (v : α) (h : mapGet (m.filter (fun q => p q.2)) k = some v) :
    p v = true := by
  induction m with
  | nil => simp [mapGet] at h
  | cons hd tl ih =>
    obtain ⟨k', v'⟩ := hd
    by_cases hp' : p v' = true
    · rw [List.filter_cons_of_pos (by simpa using hp')] at h
      by_cases hk : k' = k
      · simp [mapGet, hk] at h
        subst h
        exact hp'
      · simp [mapGet, hk] at h
        exact ih h
    · rw [List.filter_cons_of_neg (by simpa using hp')] at h
      exact ih h

/-- A kept binding whose value passes the (value-only) predicate contributes
its key to the filtered map's key list. -/
theorem mem_keys_filter {α : Type} (p : α → Bool) (m : List (String × α))
    (k : String) (v : α) (hm : mapGet m k = some v) (hp : p v = true) :
    k ∈ (m.filter (fun q => p q.2)).map Prod.fst := by
  induction m with
  | nil => simp [mapGet] at hm
  | cons hd tl ih =>
    obtain ⟨k', v'⟩ := hd
    by_cases h : k' = k
    · subst h
      simp [mapGet] at hm
      subst hm
      simp [List.filter_cons, hp]
    · simp [mapGet, h] at hm
      by_cases hp' : p v' = true <;>
        simp [List.filter_cons, hp', ih hm]

/-- Claim C1: for every key with an entry whose `expires` is strictly after
`now`, `Fetch` returns the stored results unchanged, performs no resolution
call (count 0), and leaves the state unmodified. Stated for both
`DnsReverseCache.Fetch` and the forward-variant `Resolver.Fetch` (the latter
returns any cached entry without even consulting the expiry). -/
theorem fetch_fresh_hit_no_resolution :
    (∀ (resolver : String → Except String (List String)) (d : DnsReverseCache)
        (now : Int) (k : String) (v : Fqdns),
        mapGet d.cache k = some v → now < v.expires →
        DnsReverseCache.Fetch resolver d now k =
          (d, Except.ok v.domains, 0)) ∧
    (∀ (resolve : String → Except String (List IP)) (r : Resolver)
        (now : Int) (k : String) (v : Value),
        mapGet r.cache k = some v → now < v.expires →
        Resolver.Fetch resolve r now k = (r, Except.ok v.ips, 0)) := by
  constructor
  · intro resolver d now k v h hf
    simp [DnsReverseCache.Fetch, h, hf]
  · intro resolve r now k v h _
    simp [Resolver.Fetch, h]

theorem fetch_fresh_hit_no_resolution_witness :
    DnsReverseCache.Fetch stubResolver wDns 5 "127.0.0.1" =
      (wDns, Except.ok ["localhost"], 0) ∧
    Resolver.Fetch stubResolveIP wRes 5 "example.com" =
      (wRes, Except.ok [[1, 2, 3, 4]], 0) :=
  ⟨fetch_fresh_hit_no_resolution.1 stubResolver wDns 5 "127.0.0.1"
     ⟨["localhost"], 20⟩ rfl (by decide),
   fetch_fresh_hit_no_resolution.2 stubResolveIP wRes 5 "example.com"
     ⟨[[1, 2, 3, 4]], [[1, 2, 3, 4]], 20⟩ rfl (by decide)⟩

/-- Claim C2: a failed resolution propagates the resolver's error with no
results and leaves the store exactly as it was (no entry added, removed or
modified — no negative caching), for the cache-bypassing
`LookupAddr`/`Lookup` and for `Fetch` whenever it reaches the resolution
path (no fresh entry in the reverse variant, no entry in the forward one). -/
theorem failed_resolution_propagates_and_preserves :
    (∀ (resolver : String → Except String (List String)) (d : DnsReverseCache)
        (now : Int) (k e : String),
        resolver k = Except.error e →
        DnsReverseCache.LookupAddr resolver d now k = (d, Except.error e, 1)) ∧
    (∀ (resolver : String → Except String (List String)) (d : DnsReverseCache)
        (now : Int) (k e : String),
        resolver k = Except.error e →
        (mapGet d.cache k = none ∨
          ∃ v, mapGet d.cache k = some v ∧ ¬ now < v.expires) →
        DnsReverseCache.Fetch resolver d now k = (d, Except.error e, 1)) ∧
    (∀ (resolve : String → Except String (List IP)) (r : Resolver)
        (now : Int) (k e : String),
        resolve k = Except.error e →
        Resolver.Lookup resolve r now k = (r, Except.error e, 1)) ∧
    (∀ (resolve : String → Except String (List IP)) (r : Resolver)
        (now : Int) (k e : String),
        resolve k = Except.error e → mapGet r.cache k = none →
        Resolver.Fetch resolve r now k = (r, Except.error e, 1)) := by
  refine ⟨?_, ?_, ?_, ?_⟩
  · intro resolver d now k e h
    simp [DnsReverseCache.LookupAddr, h]
  · intro resolver d now k e h hm
    rcases hm with hm | ⟨v, hv, hstale⟩
    · simp [DnsReverseCache.Fetch, hm, DnsReverseCache.LookupAddr, h]
    · simp [DnsReverseCache.Fetch, hv, hstale, DnsReverseCache.LookupAddr, h]
  · intro resolve r now k e h
    simp [Resolver.Lookup, h]
  · intro resolve r now k e h hm
    simp [Resolver.Fetch, hm, Resolver.Lookup, h]

theorem failed_resolution_propagates_and_preserves_witness :
    DnsReverseCache.LookupAddr failResolver (NewDnsReverseCache 10) 5 "a" =
      (NewDnsReverseCache 10, Except.error "no such host", 1) ∧
    DnsReverseCache.Fetch failResolver (NewDnsReverseCache 10) 5 "a" =
      (NewDnsReverseCache 10, Except.error "no such host", 1) ∧
    Resolver.Lookup failResolveIP (Resolver.New 10) 5 "a" =
      (Resolver.New 10, Except.error "no such host", 1) ∧
    Resolver.Fetch failResolveIP (Resolver.New 10) 5 "a" =
      (Resolver.New 10, Except.error "no such host", 1) :=
  ⟨failed_resolution_propagates_and_preserves.1 failResolver _ 5 "a" _ rfl,
   failed_resolution_propagates_and_preserves.2.1 failResolver _ 5 "a" _ rfl
     (Or.inl rfl),
   failed_resolution_propagates_and_preserves.2.2.1 failResolveIP _ 5 "a" _ rfl,
   failed_resolution_propagates_and_preserves.2.2.2 failResolveIP _ 5 "a" _ rfl
     rfl⟩

/-- Claim C4 counterexample: the claim's cited older variant
`DNSCache.SetTTL` is a void function, so at `ttl = 0` its caller receives no
validation error: the complete output is the unchanged state, the empty
return value `()` (the function has no error result), and the validation
message emitted only as a log line. -/
theorem dnscache_setTTL_returns_no_error :
    DNSCache.SetTTL ⟨10, []⟩ 0 =
      ((⟨10, []⟩ : DNSCache), (), some "invalid ttl. ttl wasn't set.") := rfl

/-- Claim C4 amended: `DnsReverseCache.SetTTL` rejects non-positive
durations with a validation error and leaves `defaultTTL` unchanged; on a
positive duration it returns no error, `defaultTTL` becomes the new value,
and a subsequent insertion uses it. The older `DNSCache.SetTTL` applies the
same state change but, being void, returns no error to its caller: on a
non-positive duration it only logs the validation message (see the
counterexample). -/
theorem setTTL_validation :
    (∀ (d : DnsReverseCache) (ttl : Int), ttl ≤ 0 →
        DnsReverseCache.SetTTL d ttl =
          (d, some "invalid ttl. ttl wasn't set")) ∧
    (∀ (d : DnsReverseCache) (ttl : Int), 0 < ttl →
        DnsReverseCache.SetTTL d ttl = ({ d with defaultTTL := ttl }, none)) ∧
    (∀ (d : DnsReverseCache) (ttl : Int)
        (resolver : String → Except String (List String)) (now : Int)
        (k : String) (res : List String),
        0 < ttl → resolver k = Except.ok res →
        mapGet (DnsReverseCache.LookupAddr resolver
            (DnsReverseCache.SetTTL d ttl).1 now k).1.cache k =
          some ⟨res, now + ttl⟩) ∧
    (∀ (d : DNSCache) (ttl : Int), ttl ≤ 0 →
        DNSCache.SetTTL d ttl =
          (d, (), some "invalid ttl. ttl wasn't set.")) ∧
    (∀ (d : DNSCache) (ttl : Int), 0 < ttl →
        DNSCache.SetTTL d ttl = ({ d with defaultTTL := ttl }, (), none)) := by
  refine ⟨?_, ?_, ?_, ?_, ?_⟩
  · intro d ttl h
    rw [DnsReverseCache.SetTTL, if_neg (not_lt.mpr h)]
  · intro d ttl h
    rw [DnsReverseCache.SetTTL, if_pos h]
  · intro d ttl resolver now k res hpos hres
    rw [DnsReverseCache.SetTTL, if_pos hpos]
    simp [DnsReverseCache.LookupAddr, hres, mapGet_mapInsert_self]
  · intro d ttl h
    rw [DNSCache.SetTTL, if_neg (not_lt.mpr h)]
  · intro d ttl h
    rw [DNSCache.SetTTL, if_pos h]

theorem setTTL_validation_witness :
    DnsReverseCache.SetTTL (NewDnsReverseCache 10) (-3) =
      (NewDnsReverseCache 10, some "invalid ttl. ttl wasn't set") ∧
    DnsReverseCache.SetTTL (NewDnsReverseCache 10) 7 =
      ({ NewDnsReverseCache 10 with defaultTTL := 7 }, none) ∧
    mapGet (DnsReverseCache.LookupAddr stubResolver
        (DnsReverseCache.SetTTL (NewDnsReverseCache 10) 7).1
        100 "127.0.0.1").1.cache "127.0.0.1" =
      some ⟨["localhost"], 107⟩ ∧
    DNSCache.SetTTL ⟨10, []⟩ 0 =
      ((⟨10, []⟩ : DNSCache), (), some "invalid ttl. ttl wasn't set.") ∧
    DNSCache.SetTTL ⟨10, []⟩ 7 = ((⟨7, []⟩ : DNSCache), (), none) :=
  ⟨setTTL_validation.1 _ (-3) (by decide),
   setTTL_validation.2.1 _ 7 (by decide),
   setTTL_validation.2.2.1 (NewDnsReverseCache 10) 7 stubResolver 100
     "127.0.0.1" ["localhost"] (by decide) rfl,
   setTTL_validation.2.2.2.1 ⟨10, []⟩ 0 (by decide),
   setTTL_validation.2.2.2.2 ⟨10, []⟩ 7 (by decide)⟩

/-- Claim C5: a successful resolution stores, at the key, exactly the
returned results with expiry `now + TTL-for-key` (the per-key override when
one is set, else `defaultTTL`; the reverse variant has no overrides), and
returns exactly what was stored. -/
theorem successful_resolution_stores_results :
    (∀ (resolver : String → Except String (List String)) (d : DnsReverseCache)
        (now : Int) (k : String) (res : List String),
        resolver k = Except.ok res →
        DnsReverseCache.LookupAddr resolver d now k =
          ({ d with cache := mapInsert d.cache k ⟨res, now + d.defaultTTL⟩ },
            Except.ok res, 1) ∧
        mapGet (DnsReverseCache.LookupAddr resolver d now k).1.cache k =
          some ⟨res, now + d.defaultTTL⟩) ∧
    (∀ (resolve : String → Except String (List IP)) (r : Resolver)
        (now : Int) (k : String) (ips : List IP),
        resolve k = Except.ok ips →
        (Resolver.Lookup resolve r now k).2.1 = Except.ok ips ∧
        mapGet (Resolver.Lookup resolve r now k).1.cache k =
          some ⟨ips, ips.filter (fun ip => (IP.to4 ip).isSome),
                now + ttlFor r k⟩) := by
  constructor
  · intro resolver d now k res h
    refine ⟨by simp [DnsReverseCache.LookupAddr, h], ?_⟩
    simp [DnsReverseCache.LookupAddr, h, mapGet_mapInsert_self]
  · intro resolve r now k ips h
    refine ⟨by simp [Resolver.Lookup, h], ?_⟩
    simp [Resolver.Lookup, h, mapGet_mapInsert_self]

theorem successful_resolution_stores_results_witness :
    mapGet (DnsReverseCache.LookupAddr stubResolver (NewDnsReverseCache 10)
        5 "127.0.0.1").1.cache "127.0.0.1" = some ⟨["localhost"], 15⟩ ∧
    mapGet (Resolver.Lookup stubResolveIP (Resolver.New 10)
        5 "example.com").1.cache "example.com" =
      some ⟨[[93, 184, 216, 34],
             [38, 0, 28, 184, 0, 0, 0, 0, 0, 0, 0, 0, 0, 0, 23, 51]],
            [[93, 184, 216, 34]], 15⟩ :=
  ⟨(successful_resolution_stores_results.1 stubResolver (NewDnsReverseCache 10)
      5 "127.0.0.1" ["localhost"] rfl).2,
   (successful_resolution_stores_results.2 stubResolveIP (Resolver.New 10)
      5 "example.com" _ rfl).2⟩

/-- Claim C6 counterexample: `Resolver.New 0` (non-positive TTL) still
allocates its stop channel — the cancellation token is present (unclosed) —
even though no background refresh task is started. -/
theorem new_nonpositive_ttl_stop_channel_present :
    (Resolver.New 0).stop = some false ∧
    (Resolver.New 0).backgroundStarted = false := by
  constructor <;> rfl

/-- Claim C6 amended: both constructors start the background refresh task
iff the TTL is positive; `NewDnsReverseCache` creates the cancellation
handle iff the TTL is positive, while `Resolver.New` always allocates the
(unclosed) stop channel, also for non-positive TTLs. -/
theorem constructor_background_iff_positive_ttl :
    ∀ ttl : Int,
      (NewDnsReverseCache ttl).cancel = (if ttl > 0 then some () else none) ∧
      (NewDnsReverseCache ttl).backgroundStarted = decide (ttl > 0) ∧
      (Resolver.New ttl).stop = some false ∧
      (Resolver.New ttl).backgroundStarted = decide (ttl > 0) := by
  intro ttl
  exact ⟨rfl, rfl, rfl, rfl⟩

/-- Claim C7: a single `Close`/`Stop` on a freshly constructed cache
completes without error or panic, both when the background task exists
(TTL > 0) and when it does not, and it signals the task to terminate: the
next `autoRefresh` iteration returns instead of refreshing. -/
theorem close_stop_single_call_safe :
    (∀ ttl : Int,
        DnsReverseCache.Close (NewDnsReverseCache ttl) =
          Except.ok (if ttl > 0 then
              { NewDnsReverseCache ttl with cancelled := true }
            else NewDnsReverseCache ttl)) ∧
    (∀ ttl : Int, 0 < ttl →
        DnsReverseCache.Close (NewDnsReverseCache ttl) =
          Except.ok { NewDnsReverseCache ttl with cancelled := true } ∧
        ∀ now : Int,
          DnsReverseCache.autoRefreshStep
            { NewDnsReverseCache ttl with cancelled := true } now = none) ∧
    (∀ ttl : Int,
        Resolver.Stop (Resolver.New ttl) =
          Except.ok { Resolver.New ttl with stop := some true } ∧
        ∀ (resolve : String → Except String (List IP)) (now : Int),
          Resolver.autoRefreshStep resolve
            { Resolver.New ttl with stop := some true } now = none) := by
  refine ⟨?_, ?_, ?_⟩
  · intro ttl
    by_cases h : ttl > 0 <;>
      simp [NewDnsReverseCache, DnsReverseCache.Close, cancelFuncCall, h]
  · intro ttl h
    refine ⟨?_, ?_⟩
    · simp [NewDnsReverseCache, DnsReverseCache.Close, cancelFuncCall, h]
    · intro now
      simp [DnsReverseCache.autoRefreshStep]
  · intro ttl
    refine ⟨?_, ?_⟩
    · simp [Resolver.New, Resolver.Stop, chanClose]
    · intro resolve now
      simp [Resolver.autoRefreshStep]

theorem close_stop_single_call_safe_witness :
    DnsReverseCache.Close (NewDnsReverseCache 10) =
      Except.ok { NewDnsReverseCache 10 with cancelled := true } ∧
    DnsReverseCache.Close (NewDnsReverseCache 0) =
      Except.ok (if (0 : Int) > 0 then
          { NewDnsReverseCache 0 with cancelled := true }
        else NewDnsReverseCache 0) ∧
    Resolver.Stop (Resolver.New 0) =
      Except.ok { Resolver.New 0 with stop := some true } :=
  ⟨(close_stop_single_call_safe.2.1 10 (by decide)).1,
   close_stop_single_call_safe.1 0,
   (close_stop_single_call_safe.2.2 0).1⟩

/-- Claim C8: on a successful forward resolution (for a key not yet
cached), the stored `ipv4s` is exactly the order-preserving subsequence
(`List.filter`, a sublist) of the resolved IPs whose `To4` is non-nil, and
`FetchV4` returns that subset. -/
theorem lookup_stores_ipv4_filter :
    ∀ (resolve : String → Except String (List IP)) (r : Resolver)
      (now : Int) (k : String) (ips : List IP),
      resolve k = Except.ok ips → mapGet r.cache k = none →
      (mapGet (Resolver.Lookup resolve r now k).1.cache k).map Value.ipv4s =
        some (ips.filter (fun ip => (IP.to4 ip).isSome)) ∧
      (ips.filter (fun ip => (IP.to4 ip).isSome)).Sublist ips ∧
      Resolver.FetchV4 resolve r now k =
        ((Resolver.Lookup resolve r now k).1,
          Except.ok (ips.filter (fun ip => (IP.to4 ip).isSome)), 1) := by
  intro resolve r now k ips h hm
  refine ⟨?_, List.filter_sublist ips, ?_⟩
  · simp [Resolver.Lookup, h, mapGet_mapInsert_self]
  · simp [Resolver.FetchV4, hm, Resolver.Lookup, h, mapGet_mapInsert_self]

theorem lookup_stores_ipv4_filter_witness :
    (mapGet (Resolver.Lookup stubResolveIP (Resolver.New 10) 5
        "example.com").1.cache "example.com").map Value.ipv4s =
      some (wIps.filter (fun ip => (IP.to4 ip).isSome)) ∧
    (wIps.filter (fun ip => (IP.to4 ip).isSome)).Sublist wIps ∧
    Resolver.FetchV4 stubResolveIP (Resolver.New 10) 5 "example.com" =
      ((Resolver.Lookup stubResolveIP (Resolver.New 10) 5 "example.com").1,
        Except.ok (wIps.filter (fun ip => (IP.to4 ip).isSome)), 1) :=
  lookup_stores_ipv4_filter stubResolveIP (Resolver.New 10) 5 "example.com"
    wIps rfl rfl

/-- Claim C9: at the exact expiry instant (`expires = now`) the reverse
cache's `Fetch` treats the entry as stale — strict `After` fails, so it
performs a resolution — while `Refresh` — strict `Before` also fails — does
not remove the entry. -/
theorem expiry_boundary_fetch_vs_refresh :
    ∀ (resolver : String → Except String (List String)) (d : DnsReverseCache)
      (now : Int) (k : String) (v : Fqdns),
      mapGet d.cache k = some v → v.expires = now →
      DnsReverseCache.Fetch resolver d now k =
        DnsReverseCache.LookupAddr resolver d now k ∧
      (DnsReverseCache.Fetch resolver d now k).2.2 = 1 ∧
      mapGet (d.Refresh now).cache k = some v := by
  intro resolver d now k v hm he
  have h1 : DnsReverseCache.Fetch resolver d now k =
      DnsReverseCache.LookupAddr resolver d now k := by
    simp [DnsReverseCache.Fetch, hm, he]
  refine ⟨h1, ?_, ?_⟩
  · rw [h1, DnsReverseCache.LookupAddr]
    cases resolver k <;> rfl
  · have hkeep := mapGet_filter_keep
      (fun x => !(decide (x.expires < now))) d.cache k v hm (by simp [he])
    simpa [DnsReverseCache.Refresh] using hkeep

theorem expiry_boundary_fetch_vs_refresh_witness :
    DnsReverseCache.Fetch stubResolver wBoundary 5 "127.0.0.1" =
      DnsReverseCache.LookupAddr stubResolver wBoundary 5 "127.0.0.1" ∧
    (DnsReverseCache.Fetch stubResolver wBoundary 5 "127.0.0.1").2.2 = 1 ∧
    mapGet (wBoundary.Refresh 5).cache "127.0.0.1" =
      some ⟨["localhost"], 5⟩ :=
  expiry_boundary_fetch_vs_refresh stubResolver wBoundary 5 "127.0.0.1"
    ⟨["localhost"], 5⟩ rfl rfl

/-- Claim C10: when resolution succeeds with an empty result list (for a
key not yet cached), `FetchOne` returns a nil IP with a nil error,
`FetchOneString` the empty string with a nil error, and `FetchOneV4` a nil
IP with a nil error. -/
theorem empty_resolution_no_value_no_error :
    ∀ (resolve : String → Except String (List IP)) (rnd : Nat → Nat)
      (r : Resolver) (now : Int) (k : String),
      mapGet r.cache k = none → resolve k = Except.ok [] →
      (Resolver.FetchOne resolve rnd r now k).2.1 = Except.ok none ∧
      (Resolver.FetchOneString resolve rnd r now k).2.1 = Except.ok "" ∧
      (Resolver.FetchOneV4 resolve rnd r now k).2.1 = Except.ok none := by
  intro resolve rnd r now k hm h
  refine ⟨?_, ?_, ?_⟩
  · simp [Resolver.FetchOne, Resolver.Fetch, hm, Resolver.Lookup, h]
  · simp [Resolver.FetchOneString, Resolver.FetchOne, Resolver.Fetch, hm,
      Resolver.Lookup, h]
  · simp [Resolver.FetchOneV4, Resolver.FetchV4, hm, Resolver.Lookup, h,
      mapGet_mapInsert_self]

theorem empty_resolution_no_value_no_error_witness :
    (Resolver.FetchOne emptyResolveIP id (Resolver.New 10) 5 "a").2.1 =
      Except.ok none ∧
    (Resolver.FetchOneString emptyResolveIP id (Resolver.New 10) 5 "a").2.1 =
      Except.ok "" ∧
    (Resolver.FetchOneV4 emptyResolveIP id (Resolver.New 10) 5 "a").2.1 =
      Except.ok none :=
  empty_resolution_no_value_no_error emptyResolveIP id (Resolver.New 10) 5
    "a" rfl rfl

/-- `Lookup` never modifies the TTL configuration. -/
theorem lookup_ttls_defaultTTL_eq (resolve : String → Except String (List IP))
    (r : Resolver) (now : Int) (a : String) :
    (Resolver.Lookup resolve r now a).1.ttls = r.ttls ∧
    (Resolver.Lookup resolve r now a).1.defaultTTL = r.defaultTTL := by
  cases h : resolve a <;> simp [Resolver.Lookup, h]

/-- `ttlFor` only looks at the TTL configuration. -/
theorem ttlFor_congr (r r' : Resolver) (hT : r'.ttls = r.ttls)
    (hD : r'.defaultTTL = r.defaultTTL) (k : String) :
    ttlFor r' k = ttlFor r k := by
  simp [ttlFor, hT, hD]

theorem refreshFold_cons (resolve : String → Except String (List IP))
    (now : Int) (a : String) (rest : List String) (r : Resolver) :
    refreshFold resolve now (a :: rest) r =
      refreshFold resolve now rest ((Resolver.Lookup resolve r now a).1) := rfl

/-- Keys outside the refresh loop's address list keep their binding. -/
theorem refreshFold_not_mem (resolve : String → Except String (List IP))
    (now : Int) (addrs : List String) :
    ∀ (r : Resolver) (k : String), k ∉ addrs →
      mapGet (refreshFold resolve now addrs r).cache k = mapGet r.cache k := by
  induction addrs with
  | nil => intro r k _; rfl
  | cons a rest ih =>
    intro r k hk
    have hka : k ≠ a := fun h => hk (h ▸ List.mem_cons_self a rest)
    rw [refreshFold_cons, ih _ k (fun h => hk (List.mem_cons_of_mem a h))]
    cases h : resolve a
    · simp [Resolver.Lookup, h]
    · simp [Resolver.Lookup, h, mapGet_mapInsert_ne _ _ _ _ hka]

/-- A key in the refresh loop's address list whose resolution succeeds ends
up bound to the freshly resolved entry. -/
theorem refreshFold_mem (resolve : String → Except String (List IP))
    (now : Int) (addrs : List String) :
    ∀ (r : Resolver) (k : String) (ips : List IP),
      resolve k = Except.ok ips → k ∈ addrs →
      mapGet (refreshFold resolve now addrs r).cache k =
        some ⟨ips, ips.filter (fun ip => (IP.to4 ip).isSome),
              now + ttlFor r k⟩ := by
  induction addrs with
  | nil => intro r k ips _ hk; cases hk
  | cons a rest ih =>
    intro r k ips hres hk
    rw [refreshFold_cons]
    by_cases hmem : k ∈ rest
    · rw [ih ((Resolver.Lookup resolve r now a).1) k ips hres hmem]
      have hcfg := lookup_ttls_defaultTTL_eq resolve r now a
      rw [ttlFor_congr _ _ hcfg.1 hcfg.2]
    · have hka : k = a := by
        rcases List.mem_cons.mp hk with h | h
        · exact h
        · exact absurd h hmem
      subst hka
      rw [refreshFold_not_mem resolve now rest _ k hmem]
      simp [Resolver.Lookup, hres, mapGet_mapInsert_self]

/-- `Resolver.Refresh` is the refresh loop run on the expired keys. -/
theorem resolver_refresh_eq_refreshFold (resolve : String → Except String (List IP))
    (r : Resolver) (now : Int) :
    Resolver.Refresh resolve r now =
      refreshFold resolve now
        ((r.cache.filter (fun p => decide (p.2.expires < now))).map Prod.fst)
        r := rfl

/-- Claim C3 counterexample: when re-resolution fails, `Resolver.Refresh`
leaves the entry of `stale.example` in place, still carrying its old
timestamp (0), which was already in the past of the call's time (5). -/
theorem refresh_leaves_stale_entry_on_failed_resolution :
    mapGet (Resolver.Refresh failResolveIP staleRes 5).cache "stale.example" =
      some staleVal ∧ staleVal.expires < 5 := by
  constructor
  · rfl
  · decide

/-- Claim C3 amended: after `DnsReverseCache.Refresh` no key maps to an
entry whose `expires` lies strictly before the call's time (every such
entry is removed); after `Resolver.Refresh`, provided the resolver succeeds
on the expired key, the key is rebound to a freshly resolved entry with the
new expiry `now + ttlFor` — an expired timestamp survives only a failed
re-resolution (see the counterexample). -/
theorem refresh_clears_expired_amended :
    (∀ (d : DnsReverseCache) (now : Int) (k : String) (v : Fqdns),
        mapGet (d.Refresh now).cache k = some v → ¬ v.expires < now) ∧
    (∀ (resolve : String → Except String (List IP)) (r : Resolver)
        (now : Int) (k : String) (v : Value) (ips : List IP),
        mapGet r.cache k = some v → v.expires < now →
        resolve k = Except.ok ips →
        mapGet (Resolver.Refresh resolve r now).cache k =
          some ⟨ips, ips.filter (fun ip => (IP.to4 ip).isSome),
                now + ttlFor r k⟩) := by
  constructor
  · intro d now k v h
    have hp := mapGet_filter_pred (fun x => !(decide (x.expires < now)))
      d.cache k v (by simpa [DnsReverseCache.Refresh] using h)
    simpa using hp
  · intro resolve r now k v ips hm hexp hres
    have hmem : k ∈ (r.cache.filter
        (fun p => decide (p.2.expires < now))).map Prod.fst :=
      mem_keys_filter (fun x => decide (x.expires < now)) r.cache k v hm
        (by simpa using hexp)
    rw [resolver_refresh_eq_refreshFold]
    exact refreshFold_mem resolve now _ r k ips hres hmem

theorem refresh_clears_expired_amended_witness :
    ¬ ((⟨["localhost"], 5⟩ : Fqdns).expires < (5 : Int)) ∧
    mapGet (Resolver.Refresh staleResolveIP staleRes 5).cache "stale.example" =
      some ⟨[[9, 9, 9, 9]],
            ([[9, 9, 9, 9]] : List IP).filter (fun ip => (IP.to4 ip).isSome),
            5 + ttlFor staleRes "stale.example"⟩ :=
  ⟨refresh_clears_expired_amended.1 wBoundary 5 "127.0.0.1"
     ⟨["localhost"], 5⟩ rfl,
   refresh_clears_expired_amended.2 staleResolveIP staleRes 5 "stale.example"
     staleVal [[9, 9, 9, 9]] rfl (by decide) rfl⟩
